import Mathlib

/-!
Verification of `compute_sales.py`: a batch utility that loads a price
catalogue and a sales record (both JSON documents), builds a product → price
lookup dictionary, folds the sales transactions against it accumulating a
total, and reports the total together with the elapsed time.

The Python program manipulates parsed JSON values; we embed those as the
inductive type `JVal`.  Python floats are modelled as exact rationals `ℚ`
(numbers within double range, no NaN/infinity — JSON proper produces none).
Diagnostics (`print` of `WARNING:`/`ERROR:` lines) are modelled as a list of
structured `Diag` events carrying the payload each message formats.
Uncaught Python exceptions are modelled by `Option`/outcome types.
-/

/-- A parsed JSON document, as produced by Python's `json.load`:
`None`, booleans, numbers (int/float collapse to the numeric value),
strings, lists, and string-keyed dicts (association lists in insertion
order; a duplicate key in the JSON text leaves the later binding live). -/
inductive JVal where
  | null
  | bool (b : Bool)
  | num (q : ℚ)
  | str (s : String)
  | arr (xs : List JVal)
  | obj (kvs : List (String × JVal))

/-- Python `value[key]` / `value.get(key)` on a parsed JSON value:
`some` of the live binding when `v` is a dict that has the key, `none`
otherwise (covering both `KeyError` and `TypeError` on non-dicts, which
the program handles identically). Later duplicate bindings shadow
earlier ones, as in a dict built from JSON text. -/
def objGet (v : JVal) (k : String) : Option JVal :=
  match v with
  | .obj kvs => (kvs.reverse.find? (fun p => p.1 == k)).map (fun p => p.2)
  | _ => none

/-- Python `isinstance(v, dict)`. -/
def isObj : JVal → Bool
  | .obj _ => true
  | _ => false

/-- Python `isinstance(v, list)`. -/
def isArr : JVal → Bool
  | .arr _ => true
  | _ => false

/-- Whether a parsed JSON value is hashable in Python (usable as a dict
key / in a membership test): lists and dicts are not, the rest are. -/
def hashable : JVal → Bool
  | .arr _ => false
  | .obj _ => false
  | _ => true

/-- Canonical form of a Python dict key: `True == 1` and `False == 0`
in Python, so boolean keys collide with the corresponding numbers.
All other JSON-derived values are equal only to structurally equal ones. -/
def pyKey : JVal → JVal
  | .bool b => .num (if b then 1 else 0)
  | v => v

/-- Decimal digit value of a character, if it is a digit. -/
def digitVal (c : Char) : Option Nat :=
  if c.isDigit then some (c.toNat - 48) else none

/-- Value of a non-empty all-digit character list, `none` otherwise. -/
def parseNatDigits (cs : List Char) : Option Nat :=
  if cs.isEmpty then none
  else
    cs.foldl
      (fun acc c =>
        match acc, digitVal c with
        | some a, some d => some (a * 10 + d)
        | _, _ => none)
      (some 0)

/-- Optional leading sign of a numeric literal. -/
def parseSign : List Char → ℚ × List Char
  | '+' :: rest => (1, rest)
  | '-' :: rest => (-1, rest)
  | cs => (1, cs)

/-- Unsigned mantissa: `digits`, `digits.`, `digits.digits` or `.digits`. -/
def parseMantissa (cs : List Char) : Option ℚ :=
  let sp := cs.span (fun c => c.isDigit)
  match sp.2 with
  | [] =>
    if sp.1.isEmpty then none
    else (parseNatDigits sp.1).map (fun n => (n : ℚ))
  | '.' :: frac =>
    if frac.all (fun c => c.isDigit) then
      if sp.1.isEmpty && frac.isEmpty then none
      else
        some (((parseNatDigits sp.1).getD 0 : ℚ) +
          ((parseNatDigits frac).getD 0 : ℚ) / (10 : ℚ) ^ frac.length)
    else none
  | _ => none

/-- Python `float(s)` on a string: optional surrounding whitespace, an
optional sign, a decimal mantissa and an optional exponent part.
(`inf`/`nan` literals are outside the exact-rational model.) -/
def parseFloatString (s : String) : Option ℚ :=
  let cs := s.trim.toList
  let sgn := parseSign cs
  let sp := sgn.2.span (fun c => !(c == 'e' || c == 'E'))
  match sp.2 with
  | [] => (parseMantissa sp.1).map (fun m => sgn.1 * m)
  | _ :: expPart =>
    let esgn := parseSign expPart
    match parseMantissa sp.1, parseNatDigits esgn.2 with
    | some m, some e =>
      some (sgn.1 * m * (if esgn.1 = 1 then (10 : ℚ) ^ e else ((10 : ℚ) ^ e)⁻¹))
    | _, _ => none

/-- Python `float(v)` on a parsed JSON value: numbers are returned,
booleans coerce to 1/0, numeric strings are parsed; `None`, lists and
dicts raise (`TypeError`), non-numeric strings raise (`ValueError`). -/
def toFloat : JVal → Option ℚ
  | .num q => some q
  | .bool b => some (if b then 1 else 0)
  | .str s => parseFloatString s
  | _ => none

/-- The in-memory price index: a Python dict from (hashable, canonical)
product keys to prices, kept as an association list in insertion order
with at most one binding per key. -/
abbrev PDict := List (JVal × ℚ)

/-- Python `==` restricted to dict keys.  Every key ever stored in or
probed against the price dict is a canonicalised hashable value
(`null`, `num` or `str`), and on those Python equality is structural;
lists and dicts are unhashable and never reach a key comparison. -/
def keyEq : JVal → JVal → Bool
  | .null, .null => true
  | .bool a, .bool b => a == b
  | .num a, .num b => a == b
  | .str a, .str b => a == b
  | _, _ => false

/-- Python dict lookup `d[k]` / `k in d` (on the canonicalised key). -/
def dictLookup (d : PDict) (k : JVal) : Option ℚ :=
  (d.find? (fun p => keyEq p.1 k)).map (fun p => p.2)

/-- Python dict assignment `d[k] = v`: update the existing binding in
place (the stored key object is kept), or append a new binding at the
end (insertion order). -/
def dictInsert : PDict → JVal → ℚ → PDict
  | [], k, v => [(k, v)]
  | (k₀, v₀) :: rest, k, v =>
    if keyEq k₀ k then (k₀, v) :: rest
    else (k₀, v₀) :: dictInsert rest k v

/-- A diagnostic line printed by the program, as a structured event:
each constructor is one of the fixed `WARNING:`/`ERROR:` message
templates, carrying the value the message interpolates. -/
inductive Diag where
  | invalidPriceEntry (entry : JVal)
  | invalidItemsFormat (sale : JVal)
  | invalidSaleItem (item : JVal)
  | productNotFound (product : JVal)
  | errFileNotFound (filename : String)
  | errInvalidJson (filename : String)
  | errCannotOpen (filename : String) (cause : String)
  | errWriteFailed (cause : String)

/-- One iteration of the `for entry in price_data` loop body of
`build_price_dict`: `some (key, price)` when `entry["product"]` and
`float(entry["price"])` both succeed and the product is hashable (the
dict assignment would not raise `TypeError`); `none` when any of these
steps raises one of the caught exceptions and the entry is skipped. -/
def entryStep (entry : JVal) : Option (JVal × ℚ) :=
  match objGet entry "product" with
  | none => none
  | some product =>
    match (objGet entry "price").bind toFloat with
    | none => none
    | some price =>
      if hashable product then some (pyKey product, price) else none

/-- Folding one catalogue entry into the accumulated dict and log. -/
def buildStep (acc : PDict × List Diag) (entry : JVal) : PDict × List Diag :=
  match entryStep entry with
  | some kv => (dictInsert acc.1 kv.1 kv.2, acc.2)
  | none => (acc.1, acc.2 ++ [Diag.invalidPriceEntry entry])

/-- `build_price_dict(price_data)`: fold the catalogue entries into a
dict, skipping invalid entries with a `WARNING: Invalid price entry
skipped` diagnostic. Returns the dict and the emitted diagnostics. -/
def build_price_dict (price_data : List JVal) : PDict × List Diag :=
  price_data.foldl buildStep ([], [])

/-- Body of the `for item in items` loop of `compute_total_sales`:
the contribution of one line item to the total, and the diagnostics it
emits.  The whole body is inside a `try` that catches `KeyError`,
`ValueError` and `TypeError`, so it never raises: a missing key, a
non-coercible quantity or an unhashable product yields the
`Invalid sale item skipped` warning; a hashable product absent from the
dict yields the `not in catalogue` warning; otherwise the contribution
is `price_dict[product] * quantity`. -/
def itemStep (price_dict : PDict) (item : JVal) : ℚ × List Diag :=
  match objGet item "product" with
  | none => (0, [Diag.invalidSaleItem item])
  | some product =>
    match (objGet item "quantity").bind toFloat with
    | none => (0, [Diag.invalidSaleItem item])
    | some quantity =>
      if hashable product then
        match dictLookup price_dict (pyKey product) with
        | none => (0, [Diag.productNotFound product])
        | some price => (price * quantity, [])
      else (0, [Diag.invalidSaleItem item])

/-- The inner loop of `compute_total_sales` over a transaction's item
list: total contribution and concatenated diagnostics. -/
def itemsLoop (price_dict : PDict) : List JVal → ℚ × List Diag
  | [] => (0, [])
  | item :: rest =>
    let r := itemStep price_dict item
    let rr := itemsLoop price_dict rest
    (r.1 + rr.1, r.2 ++ rr.2)

/-- One iteration of the `for sale in sales_data` loop:
`sale.get("items", [])` requires `sale` to be a dict — on any other
value Python raises an uncaught `AttributeError`, modelled as `none`.
A missing `items` field defaults to the empty list; a present non-list
`items` value emits `Invalid items format in sale` and skips the whole
transaction; a list is folded item by item. -/
def saleStep (price_dict : PDict) (sale : JVal) : Option (ℚ × List Diag) :=
  match sale with
  | .obj kvs =>
    match (objGet (.obj kvs) "items").getD (.arr []) with
    | .arr xs => some (itemsLoop price_dict xs)
    | _ => some (0, [Diag.invalidItemsFormat (.obj kvs)])
  | _ => none

/-- `compute_total_sales(sales_data, price_dict)`: fold the transactions,
accumulating the total and the diagnostics.  `none` models the uncaught
`AttributeError` raised as soon as some transaction is not a dict. -/
def compute_total_sales : List JVal → PDict → Option (ℚ × List Diag)
  | [], _ => some (0, [])
  | sale :: rest, price_dict =>
    match saleStep price_dict sale with
    | none => none
    | some r =>
      match compute_total_sales rest price_dict with
      | none => none
      | some rr => some (r.1 + rr.1, r.2 ++ rr.2)

/-! ### State-threaded aggregator

`compute_total_sales` only ever reads the price dict (`product not in
price_dict`, `price_dict[product]`).  To state the frame property "the
price index is unchanged by aggregation" we re-express the function with
the dict threaded as explicit state through every dict operation, each
operation returning the dict it leaves behind. -/

/-- Python `k in d`, as a state transformer on the dict. -/
def dictContainsSt (d : PDict) (k : JVal) : Bool × PDict :=
  ((dictLookup d k).isSome, d)

/-- Python `d[k]`, as a state transformer on the dict. -/
def dictGetSt (d : PDict) (k : JVal) : Option ℚ × PDict :=
  (dictLookup d k, d)

/-- `itemStep` with the dict threaded through the membership test and
the indexing read.  (A `KeyError` on the indexing read would be caught
by the surrounding `except`, hence the `Invalid sale item` arm.) -/
def itemStepSt (d : PDict) (item : JVal) : (ℚ × List Diag) × PDict :=
  match objGet item "product" with
  | none => ((0, [Diag.invalidSaleItem item]), d)
  | some product =>
    match (objGet item "quantity").bind toFloat with
    | none => ((0, [Diag.invalidSaleItem item]), d)
    | some quantity =>
      if hashable product then
        let c := dictContainsSt d (pyKey product)
        if c.1 then
          let g := dictGetSt c.2 (pyKey product)
          match g.1 with
          | some price => ((price * quantity, []), g.2)
          | none => ((0, [Diag.invalidSaleItem item]), g.2)
        else ((0, [Diag.productNotFound product]), c.2)
      else ((0, [Diag.invalidSaleItem item]), d)

/-- `itemsLoop` with the dict threaded through each item. -/
def itemsLoopSt : PDict → List JVal → (ℚ × List Diag) × PDict
  | d, [] => ((0, []), d)
  | d, item :: rest =>
    let r := itemStepSt d item
    let rr := itemsLoopSt r.2 rest
    ((r.1.1 + rr.1.1, r.1.2 ++ rr.1.2), rr.2)

/-- `saleStep` with the dict threaded through. -/
def saleStepSt (d : PDict) (sale : JVal) : Option ((ℚ × List Diag) × PDict) :=
  match sale with
  | .obj kvs =>
    match (objGet (.obj kvs) "items").getD (.arr []) with
    | .arr xs => some (itemsLoopSt d xs)
    | _ => some ((0, [Diag.invalidItemsFormat (.obj kvs)]), d)
  | _ => none

/-- `compute_total_sales` with the dict threaded through; the second
component is the dict state when the function returns or raises. -/
def compute_total_sales_st : List JVal → PDict → Option (ℚ × List Diag) × PDict
  | [], d => (some (0, []), d)
  | sale :: rest, d =>
    match saleStepSt d sale with
    | none => (none, d)
    | some r =>
      match compute_total_sales_st rest r.2 with
      | (none, d₂) => (none, d₂)
      | (some rr, d₂) => (some (r.1.1 + rr.1, r.1.2 ++ rr.2), d₂)

/-! ### Spec-side aggregation invariant -/

/-- The contribution of one line item according to the spec invariant
(claim C1): an item with a `product` key and a float-coercible
`quantity` whose product is a key of the price index contributes
`price(product) * quantity`; every other item contributes zero. -/
def specItemContribution (priceIndex : PDict) (item : JVal) : ℚ :=
  match objGet item "product", (objGet item "quantity").bind toFloat with
  | some product, some quantity =>
    match dictLookup priceIndex (pyKey product) with
    | some price => price * quantity
    | none => 0
  | _, _ => 0

/-- Spec-side contribution of one transaction: the sum of its line
items' contributions when it carries a sequence of items, zero
otherwise (invalid transactions contribute nothing). -/
def specSaleContribution (priceIndex : PDict) (sale : JVal) : ℚ :=
  match objGet sale "items" with
  | some (.arr xs) => (xs.map (specItemContribution priceIndex)).sum
  | some _ => 0
  | none => 0

/-- Spec-side total: the sum over all transactions of their
contributions. -/
def specTotalSales (transactions : List JVal) (priceIndex : PDict) : ℚ :=
  (transactions.map (specSaleContribution priceIndex)).sum

/-! ### Loader, writer and entry point -/

/-- The environment side of one `open`+`json.load` attempt, matching
the `try/except` arms of `load_json_file`. -/
inductive LoadOutcome where
  | success (doc : JVal)
  | fileNotFound
  | badJson
  | osError (cause : String)

/-- `load_json_file(filename)`: returns the parsed document, or `None`
after printing the `ERROR:` diagnostic selected by the failure kind.
It never propagates the exception. -/
def load_json_file (filename : String) (outcome : LoadOutcome) :
    Option JVal × List Diag :=
  match outcome with
  | .success doc => (some doc, [])
  | .fileNotFound => (none, [Diag.errFileNotFound filename])
  | .badJson => (none, [Diag.errInvalidJson filename])
  | .osError cause => (none, [Diag.errCannotOpen filename cause])

/-- Python iteration `for x in v` over a parsed JSON value: lists yield
their elements, strings their characters, dicts their keys; numbers,
booleans and `None` raise `TypeError` (modelled `none`). -/
def pyIterate : JVal → Option (List JVal)
  | .arr xs => some xs
  | .str s => some (s.toList.map (fun c => JVal.str (String.mk [c])))
  | .obj kvs => some (kvs.map (fun kv => JVal.str kv.1))
  | _ => none

/-- `write_results(output)`: attempts the file write; an `OSError` is
swallowed after printing the `ERROR:` diagnostic.  `writeFailure` is
the environment side (`some cause` when the write raises). -/
def write_results (_output : String) (writeFailure : Option String) :
    List Diag :=
  match writeFailure with
  | none => []
  | some cause => [Diag.errWriteFailed cause]

/-- The process exit status of `main`, as a function of the user
arguments and of the environment outcomes of the two loads and the
write.  Status 1 arises from the explicit `sys.exit(1)` calls (wrong
argument count, a failed load) and from an uncaught exception anywhere
in the pipeline: iterating a non-iterable document (`TypeError` in
`build_price_dict` or `compute_total_sales`) or aggregating a non-dict
transaction (`AttributeError`).  A write failure is swallowed by
`write_results` and the process ends normally with status 0. -/
def main_exit_code (args : List String) (priceOutcome salesOutcome : LoadOutcome)
    (writeFailure : Option String) : Nat :=
  match args with
  | [price_file, sales_file] =>
    match (load_json_file price_file priceOutcome).1,
          (load_json_file sales_file salesOutcome).1 with
    | some priceDoc, some salesDoc =>
      match pyIterate priceDoc with
      | none => 1
      | some entries =>
        match pyIterate salesDoc with
        | none => 1
        | some sales =>
          match compute_total_sales sales (build_price_dict entries).1 with
          | none => 1
          | some _ =>
            let _ := write_results "" writeFailure
            0
    | _, _ => 1
  | _ => 1

/-- The condition under which one run completes the whole pipeline
without a fatal error or an uncaught exception: two arguments, both
documents load, both documents are iterable, and every iterated
transaction is a dict. -/
def run_succeeds (args : List String) (priceOutcome salesOutcome : LoadOutcome) :
    Bool :=
  args.length == 2 &&
    (match priceOutcome, salesOutcome with
     | .success priceDoc, .success salesDoc =>
       (pyIterate priceDoc).isSome &&
         (match pyIterate salesDoc with
          | some sales => sales.all isObj
          | none => false)
     | _, _ => false)

/-! ### Concrete inputs used by witnesses and counterexamples -/

/-- Scenario A catalogue: one product `A` at price 10. -/
def exCatalogue : List JVal :=
  [JVal.obj [("product", JVal.str "A"), ("price", JVal.num 10)]]

/-- The price dict built from `exCatalogue`. -/
def exPriceDict : PDict := (build_price_dict exCatalogue).1

/-- Scenario A line item: two units of product `A`. -/
def exItem : JVal :=
  JVal.obj [("product", JVal.str "A"), ("quantity", JVal.num 2)]

/-- Scenario A sales record: one transaction holding `exItem`. -/
def exSales : List JVal :=
  [JVal.obj [("items", JVal.arr [exItem])]]

/-- A valid catalogue entry: product `A` at price 10. -/
def dupEntry1 : JVal :=
  JVal.obj [("product", JVal.str "A"), ("price", JVal.num 10)]

/-- A second valid catalogue entry for the same product `A`, price 20. -/
def dupEntry2 : JVal :=
  JVal.obj [("product", JVal.str "A"), ("price", JVal.num 20)]

/-- A catalogue with two valid entries sharing the product key `A`. -/
def dupCatalogue : List JVal := [dupEntry1, dupEntry2]

/-- A transaction whose `items` field is the string `"bad"`. -/
def badItemsTxn : JVal := JVal.obj [("items", JVal.str "bad")]

/-- A price dict carrying a negative price for product `A`. -/
def negPriceDict : PDict := [(JVal.str "A", (-5 : ℚ))]

/-- A transaction with an empty item list. -/
def emptyTxn : JVal := JVal.obj [("items", JVal.arr [])]

/-- A line item for one unit of product `A`. -/
def oneUnitA : JVal :=
  JVal.obj [("product", JVal.str "A"), ("quantity", JVal.num 1)]

/-- `emptyTxn` with `oneUnitA` added to its item list. -/
def oneUnitATxn : JVal := JVal.obj [("items", JVal.arr [oneUnitA])]

/-! ### Helper lemmas: key equality and dict operations -/

/-- `keyEq` holds of two values exactly when they are structurally equal
and hashable (the only values that ever reach a key comparison). -/
theorem keyEq_eq_true_iff (a b : JVal) :
    keyEq a b = true ↔ a = b ∧ hashable a = true := by
  cases a <;> cases b <;> simp [keyEq, hashable]

/-- `keyEq` is reflexive on hashable values. -/
theorem keyEq_refl_of_hashable (k : JVal) (hk : hashable k = true) :
    keyEq k k = true := by
  exact (keyEq_eq_true_iff k k).mpr ⟨rfl, hk⟩

/-- Canonicalising a hashable key keeps it hashable. -/
theorem hashable_pyKey (p : JVal) (hp : hashable p = true) :
    hashable (pyKey p) = true := by
  cases p <;> simp [pyKey, hashable] at hp ⊢

/-- Inversion of a successful catalogue entry step: the stored key is
the canonical form of a hashable extracted product, and the stored
value is the coerced price. -/
theorem entryStep_inv (e : JVal) (k : JVal) (v : ℚ)
    (h : entryStep e = some (k, v)) :
    ∃ product, objGet e "product" = some product ∧
      hashable product = true ∧ k = pyKey product ∧
      (objGet e "price").bind toFloat = some v := by
  unfold entryStep at h
  split at h
  · exact absurd h (by simp)
  · next product hp =>
    split at h
    · exact absurd h (by simp)
    · next price hq =>
      split at h
      · next hh =>
        simp only [Option.some.injEq, Prod.mk.injEq] at h
        exact ⟨product, hp, hh, h.1.symm, by rw [hq, h.2]⟩
      · exact absurd h (by simp)

/-- The key produced by a successful catalogue entry step is hashable
(the dict assignment did not raise). -/
theorem entryStep_hashable_key (e : JVal) (k : JVal) (v : ℚ)
    (h : entryStep e = some (k, v)) : hashable k = true := by
  obtain ⟨product, _, hh, hk, _⟩ := entryStep_inv e k v h
  rw [hk]
  exact hashable_pyKey product hh

/-- Looking up the key just inserted returns the value just written. -/
theorem dictLookup_insert_self (d : PDict) (k : JVal) (v : ℚ)
    (hk : keyEq k k = true) :
    dictLookup (dictInsert d k v) k = some v := by
  induction d with
  | nil => simp [dictInsert, dictLookup, List.find?, hk]
  | cons p rest ih =>
    obtain ⟨k₀, v₀⟩ := p
    by_cases h : keyEq k₀ k = true
    · simp [dictInsert, h, dictLookup, List.find?]
    · have h₀ : keyEq k₀ k = false := by
        cases hb : keyEq k₀ k
        · rfl
        · exact absurd hb h
      simp only [dictInsert, h₀, Bool.false_eq_true, if_false]
      simpa [dictLookup, List.find?, h₀] using ih

/-- Inserting under a key that does not match a probe key leaves the
probe's lookup unchanged. -/
theorem dictLookup_insert_of_keyEq_false (d : PDict) (k : JVal) (v : ℚ)
    (k₂ : JVal) (h : keyEq k k₂ = false) :
    dictLookup (dictInsert d k v) k₂ = dictLookup d k₂ := by
  induction d with
  | nil => simp [dictInsert, dictLookup, List.find?, h]
  | cons p rest ih =>
    obtain ⟨k₀, v₀⟩ := p
    by_cases h₀ : keyEq k₀ k = true
    · have hk₀ : k₀ = k ∧ hashable k₀ = true := (keyEq_eq_true_iff k₀ k).mp h₀
      obtain ⟨rfl, _⟩ := hk₀
      simp [dictInsert, h₀, dictLookup, List.find?, h]
    · have h₀f : keyEq k₀ k = false := by
        cases hb : keyEq k₀ k
        · rfl
        · exact absurd hb h₀
      simp only [dictInsert, h₀f, Bool.false_eq_true, if_false]
      by_cases h₂ : keyEq k₀ k₂ = true
      · simp [dictLookup, List.find?, h₂]
      · have h₂f : keyEq k₀ k₂ = false := by
          cases hb : keyEq k₀ k₂
          · rfl
          · exact absurd hb h₂
        simpa [dictLookup, List.find?, h₂f] using ih

/-- Inserting an absent key grows the dict by exactly one binding. -/
theorem length_dictInsert_of_absent (d : PDict) (k : JVal) (v : ℚ)
    (h : dictLookup d k = none) :
    (dictInsert d k v).length = d.length + 1 := by
  induction d with
  | nil => simp [dictInsert]
  | cons p rest ih =>
    obtain ⟨k₀, v₀⟩ := p
    have h₀ : keyEq k₀ k = false := by
      cases hb : keyEq k₀ k
      · rfl
      · simp [dictLookup, List.find?, hb] at h
    have hrest : dictLookup rest k = none := by
      simpa [dictLookup, List.find?, h₀] using h
    simp [dictInsert, h₀, ih hrest]

/-! ### Helper lemmas: the price-dict build loop -/

/-- Catalogue entries that do not resolve to key `k` leave the lookup
at `k` unchanged while folding. -/
theorem foldl_buildStep_lookup (k : JVal) :
    ∀ (l : List JVal) (acc : PDict × List Diag),
      (∀ e ∈ l, ∀ v, entryStep e ≠ some (k, v)) →
      dictLookup ((l.foldl buildStep acc).1) k = dictLookup acc.1 k := by
  intro l
  induction l with
  | nil => intro acc _; rfl
  | cons e rest ih =>
    intro acc hl
    rw [List.foldl_cons, ih _ (fun e₂ h₂ => hl e₂ (List.mem_cons_of_mem _ h₂))]
    cases hstep : entryStep e with
    | none => simp [buildStep, hstep]
    | some kv =>
      obtain ⟨k₂, v₂⟩ := kv
      have hne : keyEq k₂ k = false := by
        cases hb : keyEq k₂ k
        · rfl
        · obtain ⟨heq, _⟩ := (keyEq_eq_true_iff k₂ k).mp hb
          subst heq
          exact absurd hstep (hl e (List.mem_cons_self e rest) v₂)
      simp [buildStep, hstep, dictLookup_insert_of_keyEq_false _ _ _ _ hne]

/-- Folding a catalogue of valid entries with pairwise-distinct keys,
none of which is already bound in the accumulator, grows the dict by
exactly one binding per entry. -/
theorem foldl_buildStep_length :
    ∀ (l : List JVal) (acc : PDict × List Diag),
      (∀ e ∈ l, (entryStep e).isSome = true) →
      (l.filterMap (fun e => (entryStep e).map (fun kv => kv.1))).Pairwise
        (fun a b => keyEq a b = false) →
      (∀ e ∈ l, ∀ k v, entryStep e = some (k, v) → dictLookup acc.1 k = none) →
      ((l.foldl buildStep acc).1).length = acc.1.length + l.length := by
  intro l
  induction l with
  | nil => intro acc _ _ _; simp
  | cons e rest ih =>
    intro acc hvalid hpair habs
    obtain ⟨kv, hstep⟩ :=
      Option.isSome_iff_exists.mp (hvalid e (List.mem_cons_self e rest))
    obtain ⟨k, v⟩ := kv
    have hkeys :
        (e :: rest).filterMap (fun e => (entryStep e).map (fun kv => kv.1)) =
          k :: rest.filterMap (fun e => (entryStep e).map (fun kv => kv.1)) := by
      simp [List.filterMap_cons, hstep]
    rw [hkeys, List.pairwise_cons] at hpair
    obtain ⟨hhead, htail⟩ := hpair
    rw [List.foldl_cons]
    have hacc : (buildStep acc e).1 = dictInsert acc.1 k v := by
      simp [buildStep, hstep]
    have habs₂ : ∀ e₂ ∈ rest, ∀ k₂ v₂, entryStep e₂ = some (k₂, v₂) →
        dictLookup (buildStep acc e).1 k₂ = none := by
      intro e₂ h₂ k₂ v₂ hstep₂
      have hk₂mem : k₂ ∈ rest.filterMap (fun e => (entryStep e).map (fun kv => kv.1)) := by
        exact List.mem_filterMap.mpr ⟨e₂, h₂, by simp [hstep₂]⟩
      rw [hacc, dictLookup_insert_of_keyEq_false _ _ _ _ (hhead k₂ hk₂mem)]
      exact habs e₂ (List.mem_cons_of_mem _ h₂) k₂ v₂ hstep₂
    rw [ih (buildStep acc e)
      (fun e₂ h₂ => hvalid e₂ (List.mem_cons_of_mem _ h₂)) htail habs₂]
    rw [hacc, length_dictInsert_of_absent _ _ _
      (habs e (List.mem_cons_self e rest) k v hstep)]
    simp [Nat.add_assoc, Nat.add_comm 1]

/-! ### Helper lemmas: the aggregation loop -/

/-- `keyEq` never holds against an unhashable probe. -/
theorem keyEq_false_of_unhashable (a b : JVal) (hb : hashable b = false) :
    keyEq a b = false := by
  cases a <;> cases b <;> simp [keyEq, hashable] at hb ⊢

/-- Looking up an unhashable value finds nothing (in Python the
membership test raises before comparing). -/
theorem dictLookup_none_of_unhashable (d : PDict) (k : JVal)
    (hk : hashable k = false) : dictLookup d k = none := by
  induction d with
  | nil => rfl
  | cons p rest ih =>
    simpa [dictLookup, List.find?, keyEq_false_of_unhashable p.1 k hk] using ih

/-- The contribution computed by the item loop body equals the
spec-side contribution of the item. -/
theorem itemStep_fst_eq_spec (pd : PDict) (item : JVal) :
    (itemStep pd item).1 = specItemContribution pd item := by
  unfold itemStep specItemContribution
  cases hp : objGet item "product" with
  | none => simp
  | some product =>
    cases hq : (objGet item "quantity").bind toFloat with
    | none => simp
    | some quantity =>
      by_cases hh : hashable product = true
      · simp only [hh, if_true]
        cases hl : dictLookup pd (pyKey product) <;> simp
      · have hfalse : hashable product = false := by
          cases hb : hashable product
          · rfl
          · exact absurd hb hh
        have hpk : hashable (pyKey product) = false := by
          cases product <;> simp [pyKey, hashable] at hfalse ⊢
        simp [hh, dictLookup_none_of_unhashable pd _ hpk]

/-- The item loop distributes over list append. -/
theorem itemsLoop_append (pd : PDict) (xs ys : List JVal) :
    itemsLoop pd (xs ++ ys) =
      ((itemsLoop pd xs).1 + (itemsLoop pd ys).1,
       (itemsLoop pd xs).2 ++ (itemsLoop pd ys).2) := by
  induction xs with
  | nil => simp [itemsLoop]
  | cons x rest ih => simp [itemsLoop, ih, add_assoc]

/-- The item loop computes the spec-side sum of its items. -/
theorem itemsLoop_fst_eq_spec (pd : PDict) (xs : List JVal) :
    (itemsLoop pd xs).1 = (xs.map (specItemContribution pd)).sum := by
  induction xs with
  | nil => rfl
  | cons x rest ih => simp [itemsLoop, itemStep_fst_eq_spec, ih]

/-- The sale loop body returns normally exactly on dict transactions. -/
theorem saleStep_isSome_iff (pd : PDict) (s : JVal) :
    (saleStep pd s).isSome = isObj s := by
  cases s <;> simp only [saleStep, isObj] <;> try rfl
  split <;> rfl

/-- A normally-returning sale loop body computes the spec-side
contribution of its transaction. -/
theorem saleStep_fst_eq_spec (pd : PDict) (s : JVal) (r : ℚ × List Diag)
    (h : saleStep pd s = some r) : r.1 = specSaleContribution pd s := by
  cases s with
  | obj kvs =>
    simp only [saleStep] at h
    unfold specSaleContribution
    cases hi : objGet (JVal.obj kvs) "items" with
    | none =>
      rw [hi] at h
      simp only [Option.getD_none, Option.some.injEq, itemsLoop] at h
      subst h
      rfl
    | some v =>
      rw [hi] at h
      cases v <;> simp only [Option.getD_some, Option.some.injEq] at h <;>
        subst h <;> simp [itemsLoop_fst_eq_spec]
  | null => exact absurd h (by simp [saleStep])
  | bool b => exact absurd h (by simp [saleStep])
  | num q => exact absurd h (by simp [saleStep])
  | str s => exact absurd h (by simp [saleStep])
  | arr xs => exact absurd h (by simp [saleStep])

/-- The aggregator returns normally exactly when every transaction is
a dict. -/
theorem compute_isSome_iff (sales : List JVal) (pd : PDict) :
    (compute_total_sales sales pd).isSome = sales.all isObj := by
  induction sales with
  | nil => rfl
  | cons s rest ih =>
    simp only [compute_total_sales, List.all_cons]
    cases hs : saleStep pd s with
    | none =>
      have hobj : isObj s = false := by
        have hiff := saleStep_isSome_iff pd s
        rw [hs] at hiff
        exact hiff.symm
      simp [hobj]
    | some r =>
      have hobj : isObj s = true := by
        have hiff := saleStep_isSome_iff pd s
        rw [hs] at hiff
        exact hiff.symm
      cases hrest : compute_total_sales rest pd with
      | none =>
        rw [hrest] at ih
        simp [hobj, ← ih]
      | some rr =>
        rw [hrest] at ih
        simp [hobj, ← ih]

/-- On a sales list of dict transactions the aggregator returns the
spec-side total. -/
theorem compute_total_eq_spec (sales : List JVal) (pd : PDict)
    (h : ∀ s ∈ sales, isObj s = true) :
    ∃ lg, compute_total_sales sales pd = some (specTotalSales sales pd, lg) := by
  induction sales with
  | nil => exact ⟨[], by simp [compute_total_sales, specTotalSales]⟩
  | cons s rest ih =>
    obtain ⟨lg, hrest⟩ := ih (fun s₂ h₂ => h s₂ (List.mem_cons_of_mem _ h₂))
    have hobj := h s (List.mem_cons_self s rest)
    have hsome : (saleStep pd s).isSome = true := by
      rw [saleStep_isSome_iff, hobj]
    obtain ⟨r, hr⟩ := Option.isSome_iff_exists.mp hsome
    refine ⟨r.2 ++ lg, ?_⟩
    simp only [compute_total_sales, hr, hrest]
    rw [saleStep_fst_eq_spec pd s r hr]
    simp [specTotalSales]

/-- The aggregator distributes over concatenation of sales lists. -/
theorem compute_append (pd : PDict) (xs ys : List JVal)
    (rx ry : ℚ × List Diag)
    (hx : compute_total_sales xs pd = some rx)
    (hy : compute_total_sales ys pd = some ry) :
    compute_total_sales (xs ++ ys) pd = some (rx.1 + ry.1, rx.2 ++ ry.2) := by
  induction xs generalizing rx with
  | nil =>
    simp only [compute_total_sales, Option.some.injEq] at hx
    rw [← hx]
    simp [hy]
  | cons s rest ih =>
    rw [List.cons_append]
    simp only [compute_total_sales] at hx ⊢
    cases hs : saleStep pd s with
    | none => rw [hs] at hx; exact absurd hx (by simp)
    | some r =>
      rw [hs] at hx
      cases hrest : compute_total_sales rest pd with
      | none => rw [hrest] at hx; exact absurd hx (by simp)
      | some rr =>
        rw [hrest] at hx
        simp only [Option.some.injEq] at hx
        rw [ih rr hrest]
        rw [← hx]
        simp [add_assoc, List.append_assoc]

/-! ### Helper lemmas: the state-threaded aggregator -/

/-- The state-threaded item body returns the pure result and leaves the
dict exactly as it found it. -/
theorem itemStepSt_eq (d : PDict) (item : JVal) :
    itemStepSt d item = (itemStep d item, d) := by
  unfold itemStepSt itemStep dictContainsSt dictGetSt
  cases hp : objGet item "product" with
  | none => rfl
  | some product =>
    cases hq : (objGet item "quantity").bind toFloat with
    | none => rfl
    | some quantity =>
      by_cases hh : hashable product = true
      · simp only [hh, if_true]
        cases hl : dictLookup d (pyKey product) <;> simp [hl]
      · simp [hh]

/-- The state-threaded item loop returns the pure result and the
untouched dict. -/
theorem itemsLoopSt_eq (d : PDict) (xs : List JVal) :
    itemsLoopSt d xs = (itemsLoop d xs, d) := by
  induction xs with
  | nil => rfl
  | cons x rest ih => simp [itemsLoopSt, itemsLoop, itemStepSt_eq, ih]

/-- The state-threaded sale body returns the pure result and the
untouched dict. -/
theorem saleStepSt_eq (d : PDict) (s : JVal) :
    saleStepSt d s = (saleStep d s).map (fun r => (r, d)) := by
  cases s with
  | obj kvs =>
    simp only [saleStepSt, saleStep]
    cases hi : (objGet (JVal.obj kvs) "items").getD (JVal.arr []) <;>
      simp [itemsLoopSt_eq]
  | null => rfl
  | bool b => rfl
  | num q => rfl
  | str s => rfl
  | arr xs => rfl

/-! ### Claims -/

/-- C1: for every list of transactions (records, per the data model)
and every price index, `compute_total_sales` returns the sum, over all
line items that have a `product` key and a float-coercible `quantity`
and whose product is a key of the price index, of
`price(product) * quantity`; every other (invalid or unresolvable)
item contributes zero, and with no valid resolvable item anywhere the
sum — and hence the result — is 0. -/
theorem C1_compute_total_is_spec_sum (sales : List JVal) (pd : PDict)
    (h : ∀ s ∈ sales, isObj s = true) :
    ∃ lg, compute_total_sales sales pd = some (specTotalSales sales pd, lg) :=
  compute_total_eq_spec sales pd h

/-- Witness for C1 at Scenario A (catalogue price 10, quantity 2). -/
theorem C1_witness :
    ∃ lg, compute_total_sales exSales exPriceDict =
      some (specTotalSales exSales exPriceDict, lg) :=
  C1_compute_total_is_spec_sum exSales exPriceDict (by decide)

/-- C2 counterexample: on the transaction list `[42]` — a structured
sales input whose transaction is not a record — the aggregator raises
an uncaught `AttributeError` (`42 .get` does not exist; modelled
`none`) instead of terminating normally with a float. -/
theorem C2_counterexample : compute_total_sales [JVal.num 42] [] = none := rfl

/-- C2 (amended): for every sales input in which each transaction is a
record (dict) — whatever the shape of its fields and items — and every
price index, `compute_total_sales` terminates normally and returns a
float; malformed units inside a record transaction never abort it. -/
theorem C2_no_raise_on_record_transactions (sales : List JVal) (pd : PDict)
    (h : ∀ s ∈ sales, isObj s = true) :
    (compute_total_sales sales pd).isSome = true := by
  rw [compute_isSome_iff]
  exact List.all_eq_true.mpr h

/-- Witness for C2 on a thoroughly malformed (but record-shaped)
sales input. -/
theorem C2_witness :
    (compute_total_sales
      [JVal.obj [], badItemsTxn,
       JVal.obj [("items", JVal.arr [JVal.num 3, JVal.obj []])]]
      exPriceDict).isSome = true :=
  C2_no_raise_on_record_transactions
    [JVal.obj [], badItemsTxn,
     JVal.obj [("items", JVal.arr [JVal.num 3, JVal.obj []])]]
    exPriceDict (by decide)

/-- C3 counterexample: a transaction with no `items` field at all.
The claim requires the `WARNING: Invalid items format in sale`
diagnostic to be emitted for a missing `items` field; the code
defaults the missing field to the empty list and emits no diagnostic
(the empty log), while indeed contributing zero. -/
theorem C3_counterexample :
    (objGet (JVal.obj []) "items").isNone = true ∧
    compute_total_sales [JVal.obj []] [] = some (0, []) :=
  ⟨rfl, by simp [compute_total_sales, saleStep, objGet, itemsLoop]⟩

/-- C3 (amended): a transaction whose `items` field is PRESENT and not
a sequence is reported with `WARNING: Invalid items format in sale:
<sale>`, contributes zero, is skipped wholesale, and the surrounding
transactions are still processed; a transaction with a MISSING `items`
field is instead treated as having an empty item list: it contributes
zero silently, with no diagnostic. -/
theorem C3_invalid_items_warned_and_skipped
    (pd : PDict) (pre post : List JVal) (kvs : List (String × JVal)) (v : JVal)
    (hpre : ∀ s ∈ pre, isObj s = true) (hpost : ∀ s ∈ post, isObj s = true)
    (hv : objGet (JVal.obj kvs) "items" = some v) (hna : isArr v = false) :
    ∃ rp rs, compute_total_sales pre pd = some rp ∧
      compute_total_sales post pd = some rs ∧
      compute_total_sales (pre ++ JVal.obj kvs :: post) pd =
        some (rp.1 + rs.1,
          rp.2 ++ (Diag.invalidItemsFormat (JVal.obj kvs) :: rs.2)) := by
  have hpreSome : (compute_total_sales pre pd).isSome = true := by
    rw [compute_isSome_iff]
    exact List.all_eq_true.mpr hpre
  have hpostSome : (compute_total_sales post pd).isSome = true := by
    rw [compute_isSome_iff]
    exact List.all_eq_true.mpr hpost
  obtain ⟨rp, hp⟩ := Option.isSome_iff_exists.mp hpreSome
  obtain ⟨rs, hs⟩ := Option.isSome_iff_exists.mp hpostSome
  refine ⟨rp, rs, hp, hs, ?_⟩
  have hsale : saleStep pd (JVal.obj kvs) =
      some (0, [Diag.invalidItemsFormat (JVal.obj kvs)]) := by
    simp only [saleStep, hv, Option.getD_some]
    cases v <;> simp [isArr] at hna ⊢
  have hmid : compute_total_sales (JVal.obj kvs :: post) pd =
      some (0 + rs.1, Diag.invalidItemsFormat (JVal.obj kvs) :: rs.2) := by
    simp only [compute_total_sales, hsale, hs]
    rfl
  have := compute_append pd pre (JVal.obj kvs :: post) rp
    (0 + rs.1, Diag.invalidItemsFormat (JVal.obj kvs) :: rs.2) hp hmid
  simpa using this

/-- Witness for C3: a transaction whose `items` is the string `"bad"`,
between two Scenario A transactions. -/
theorem C3_witness :
    ∃ rp rs, compute_total_sales [oneUnitATxn] exPriceDict = some rp ∧
      compute_total_sales [oneUnitATxn] exPriceDict = some rs ∧
      compute_total_sales ([oneUnitATxn] ++ badItemsTxn :: [oneUnitATxn])
          exPriceDict =
        some (rp.1 + rs.1,
          rp.2 ++ (Diag.invalidItemsFormat badItemsTxn :: rs.2)) :=
  C3_invalid_items_warned_and_skipped exPriceDict [oneUnitATxn] [oneUnitATxn]
    [("items", JVal.str "bad")] (JVal.str "bad")
    (by decide) (by decide) rfl rfl

/-- C4 counterexample: `dupCatalogue` has 2 valid entries (product key
present, float-coercible price; 0 invalid entries), yet the built
index has exactly 1 key, not 2: the claim fails when valid entries
share a product key. -/
theorem C4_counterexample :
    (∀ e ∈ dupCatalogue, (entryStep e).isSome = true) ∧
    dupCatalogue.length = 2 ∧
    (build_price_dict dupCatalogue).1.length = 1 :=
  ⟨by decide, rfl, rfl⟩

/-- C4 (amended): for every price catalogue of N valid entries and 0
invalid entries whose extracted product keys are moreover pairwise
distinct, `build_price_dict` returns a mapping with exactly N keys.
(As stated the claim is false: duplicate product keys among valid
entries collapse into a single binding.) -/
theorem C4_build_index_key_count (l : List JVal)
    (hvalid : ∀ e ∈ l, (entryStep e).isSome = true)
    (hdistinct :
      (l.filterMap (fun e => (entryStep e).map (fun kv => kv.1))).Pairwise
        (fun a b => keyEq a b = false)) :
    (build_price_dict l).1.length = l.length := by
  have h := foldl_buildStep_length l ([], []) hvalid hdistinct
    (fun e he k v hstep => rfl)
  simpa [build_price_dict] using h

/-- Witness for C4 on the one-entry Scenario A catalogue. -/
theorem C4_witness :
    (build_price_dict exCatalogue).1.length = exCatalogue.length :=
  C4_build_index_key_count exCatalogue (by decide) (by decide)

/-- C5 counterexample: with catalogue price −5 for product `A`, adding
the valid, resolvable line item `oneUnitA` (quantity 1, neither zero)
to the empty transaction makes the computed total strictly SMALLER
(−5 < 0), refuting "it never decreases". -/
theorem C5_counterexample :
    (compute_total_sales [emptyTxn] negPriceDict).map (fun r => r.1) =
      some 0 ∧
    (compute_total_sales [oneUnitATxn] negPriceDict).map (fun r => r.1) =
      some (-5) ∧
    ((-5 : ℚ) < 0) := by
  refine ⟨?_, ?_, by norm_num⟩
  · simp [compute_total_sales, saleStep, objGet, itemsLoop, emptyTxn]
  · simp [compute_total_sales, saleStep, objGet, itemsLoop, itemStep,
      oneUnitATxn, oneUnitA, toFloat, hashable, pyKey, dictLookup, keyEq,
      negPriceDict, List.find?]

/-- C5 (amended): adding a valid, resolvable line item — product
`prod` priced `p` in the index, quantity `q` — to a transaction of a
sales input changes the computed total by exactly `p * q`.  Hence when
the price and the quantity are nonnegative the total never decreases:
it is unchanged when `q = 0` and strictly increases when both are
positive.  (As stated, over arbitrary valid items, the claim is false:
a negative price or quantity strictly decreases the total.) -/
theorem C5_add_item_shifts_total_by_price_times_qty
    (pd : PDict) (pre post xs : List JVal) (t t₂ item prod qv : JVal)
    (p q : ℚ)
    (hpre : ∀ s ∈ pre, isObj s = true) (hpost : ∀ s ∈ post, isObj s = true)
    (htObj : isObj t = true) (ht : objGet t "items" = some (JVal.arr xs))
    (ht₂Obj : isObj t₂ = true)
    (ht₂ : objGet t₂ "items" = some (JVal.arr (xs ++ [item])))
    (hprod : objGet item "product" = some prod)
    (hqv : objGet item "quantity" = some qv)
    (hq : toFloat qv = some q)
    (hh : hashable prod = true)
    (hp : dictLookup pd (pyKey prod) = some p) :
    ∃ T lg lg₂, compute_total_sales (pre ++ t :: post) pd = some (T, lg) ∧
      compute_total_sales (pre ++ t₂ :: post) pd = some (T + p * q, lg₂) ∧
      (0 ≤ p → 0 ≤ q → T ≤ T + p * q) ∧
      (q = 0 → T + p * q = T) ∧
      (0 < p → 0 < q → T < T + p * q) := by
  have hpreSome : (compute_total_sales pre pd).isSome = true := by
    rw [compute_isSome_iff]
    exact List.all_eq_true.mpr hpre
  have hpostSome : (compute_total_sales post pd).isSome = true := by
    rw [compute_isSome_iff]
    exact List.all_eq_true.mpr hpost
  obtain ⟨rp, hrp⟩ := Option.isSome_iff_exists.mp hpreSome
  obtain ⟨rs, hrs⟩ := Option.isSome_iff_exists.mp hpostSome
  obtain ⟨kvs, rfl⟩ : ∃ kvs, t = JVal.obj kvs := by
    cases t <;> simp [isObj] at htObj ⊢
  obtain ⟨kvs₂, rfl⟩ : ∃ kvs₂, t₂ = JVal.obj kvs₂ := by
    cases t₂ <;> simp [isObj] at ht₂Obj ⊢
  have hsalet : saleStep pd (JVal.obj kvs) = some (itemsLoop pd xs) := by
    simp [saleStep, ht]
  have hsalet₂ : saleStep pd (JVal.obj kvs₂) =
      some (itemsLoop pd (xs ++ [item])) := by
    simp [saleStep, ht₂]
  have hitem : itemStep pd item = (p * q, []) := by
    simp [itemStep, hprod, hqv, hq, hh, hp]
  have hloop₂ : itemsLoop pd (xs ++ [item]) =
      ((itemsLoop pd xs).1 + p * q, (itemsLoop pd xs).2) := by
    rw [itemsLoop_append]
    simp [itemsLoop, hitem]
  have hmid : compute_total_sales (JVal.obj kvs :: post) pd =
      some ((itemsLoop pd xs).1 + rs.1, (itemsLoop pd xs).2 ++ rs.2) := by
    simp only [compute_total_sales, hsalet, hrs]
  have hmid₂ : compute_total_sales (JVal.obj kvs₂ :: post) pd =
      some ((itemsLoop pd xs).1 + p * q + rs.1,
        (itemsLoop pd xs).2 ++ rs.2) := by
    simp only [compute_total_sales, hsalet₂, hloop₂, hrs]
  have h₁ := compute_append pd pre (JVal.obj kvs :: post) rp
    ((itemsLoop pd xs).1 + rs.1, (itemsLoop pd xs).2 ++ rs.2) hrp hmid
  have h₂ := compute_append pd pre (JVal.obj kvs₂ :: post) rp
    ((itemsLoop pd xs).1 + p * q + rs.1, (itemsLoop pd xs).2 ++ rs.2)
    hrp hmid₂
  refine ⟨rp.1 + ((itemsLoop pd xs).1 + rs.1),
    rp.2 ++ ((itemsLoop pd xs).2 ++ rs.2),
    rp.2 ++ ((itemsLoop pd xs).2 ++ rs.2), h₁, ?_, ?_, ?_, ?_⟩
  · have harith : rp.1 + ((itemsLoop pd xs).1 + p * q + rs.1) =
        rp.1 + ((itemsLoop pd xs).1 + rs.1) + p * q := by ring
    rw [← harith]
    exact h₂
  · intro hp0 hq0
    have := mul_nonneg hp0 hq0
    linarith
  · intro hq0
    rw [hq0]
    ring
  · intro hp0 hq0
    have := mul_pos hp0 hq0
    linarith

/-- Witness for C5: Scenario A index (price 10), adding one unit of
`A` to the empty transaction. -/
theorem C5_witness :
    ∃ T lg lg₂,
      compute_total_sales ([] ++ emptyTxn :: []) exPriceDict =
        some (T, lg) ∧
      compute_total_sales ([] ++ oneUnitATxn :: []) exPriceDict =
        some (T + 10 * 1, lg₂) ∧
      (0 ≤ (10 : ℚ) → 0 ≤ (1 : ℚ) → T ≤ T + 10 * 1) ∧
      ((1 : ℚ) = 0 → T + 10 * 1 = T) ∧
      (0 < (10 : ℚ) → 0 < (1 : ℚ) → T < T + 10 * 1) :=
  C5_add_item_shifts_total_by_price_times_qty exPriceDict [] [] []
    emptyTxn oneUnitATxn oneUnitA (JVal.str "A") (JVal.num 1) 10 1
    (by decide) (by decide) rfl rfl rfl rfl rfl rfl rfl rfl rfl

/-- C6: when several catalogue entries share a product key, the price
finally stored in the built index for that key is the price of the
last entry (in iteration order) that resolves to it — last write wins,
never a merge or an average of the occurrences. -/
theorem C6_last_write_wins (l₁ l₂ : List JVal) (e : JVal) (k : JVal) (v : ℚ)
    (he : entryStep e = some (k, v))
    (hlast : ∀ e₂ ∈ l₂, ∀ v₂, entryStep e₂ ≠ some (k, v₂)) :
    dictLookup (build_price_dict (l₁ ++ e :: l₂)).1 k = some v := by
  unfold build_price_dict
  rw [List.foldl_append, List.foldl_cons]
  rw [foldl_buildStep_lookup k l₂ _ hlast]
  have hins : (buildStep (List.foldl buildStep ([], []) l₁) e).1 =
      dictInsert (List.foldl buildStep ([], []) l₁).1 k v := by
    simp [buildStep, he]
  rw [hins]
  exact dictLookup_insert_self _ _ _
    (keyEq_refl_of_hashable k (entryStep_hashable_key e k v he))

/-- Witness for C6 on the duplicate catalogue: the stored price for
`A` is 20, the second (last) entry's price. -/
theorem C6_witness :
    dictLookup (build_price_dict ([dupEntry1] ++ dupEntry2 :: [])).1
      (JVal.str "A") = some 20 :=
  C6_last_write_wins [dupEntry1] [] dupEntry2 (JVal.str "A") 20 rfl
    (by simp)

/-- C7 counterexample: two arguments and both documents load
successfully — so the claim demands exit status 0 — but the sales
document `[7]` contains a non-record transaction: the aggregator
raises an uncaught `AttributeError` and the process exits with
status 1. -/
theorem C7_counterexample :
    (["p", "s"] : List String).length = 2 ∧
    (load_json_file "p" (.success (JVal.arr []))).1.isSome = true ∧
    (load_json_file "s" (.success (JVal.arr [JVal.num 7]))).1.isSome = true ∧
    main_exit_code ["p", "s"] (.success (JVal.arr []))
      (.success (JVal.arr [JVal.num 7])) none = 1 :=
  ⟨rfl, rfl, rfl, rfl⟩

/-- C7 (amended): the process exit status is 0 exactly when the
argument count is two, both documents load, both documents are
iterable, and every iterated transaction is a record; otherwise —
wrong argument count, failed load, or an uncaught exception from a
non-iterable document or a non-record transaction — it is 1.  In
particular a run whose entries and items are all invalid still exits
0, and a failure to write the results file never changes the status.
(As stated the claim is false: it omits the uncaught-exception exits.) -/
theorem C7_exit_code_characterisation (args : List String)
    (priceOutcome salesOutcome : LoadOutcome)
    (writeFailure : Option String) :
    main_exit_code args priceOutcome salesOutcome writeFailure =
      (if run_succeeds args priceOutcome salesOutcome then 0 else 1) := by
  rcases args with _ | ⟨a, args⟩
  · rfl
  rcases args with _ | ⟨b, args⟩
  · rfl
  rcases args with _ | ⟨c, args⟩
  · cases priceOutcome with
    | success pdoc =>
      cases salesOutcome with
      | success sdoc =>
        simp only [main_exit_code, run_succeeds, load_json_file]
        split
        · next hpd => simp [hpd]
        · next entries hpd =>
          split
          · next hsd => simp [hpd, hsd]
          · next sales hsd =>
            split
            · next hc =>
              have hall : sales.all isObj = false := by
                rw [← compute_isSome_iff sales (build_price_dict entries).1, hc]
                rfl
              simp [hpd, hsd, hall]
            · next r hc =>
              have hall : sales.all isObj = true := by
                rw [← compute_isSome_iff sales (build_price_dict entries).1, hc]
                rfl
              simp [hpd, hsd, hall]
      | fileNotFound => rfl
      | badJson => rfl
      | osError cause => rfl
    | fileNotFound => cases salesOutcome <;> rfl
    | badJson => cases salesOutcome <;> rfl
    | osError cause => cases salesOutcome <;> rfl
  · rfl

/-- C8: for every path, each failure condition of `load_json_file` —
missing/inaccessible file, syntactically invalid JSON content, any
other I/O error (with its cause) — yields an absent (`None`) result
rather than a crash, along with a distinct `ERROR:` diagnostic; the
three diagnostics are pairwise distinct. -/
theorem C8_loader_failures_none_with_distinct_diag (fn cause : String) :
    load_json_file fn .fileNotFound = (none, [Diag.errFileNotFound fn]) ∧
    load_json_file fn .badJson = (none, [Diag.errInvalidJson fn]) ∧
    load_json_file fn (.osError cause) =
      (none, [Diag.errCannotOpen fn cause]) ∧
    Diag.errFileNotFound fn ≠ Diag.errInvalidJson fn ∧
    Diag.errFileNotFound fn ≠ Diag.errCannotOpen fn cause ∧
    Diag.errInvalidJson fn ≠ Diag.errCannotOpen fn cause :=
  ⟨rfl, rfl, rfl, by simp, by simp, by simp⟩

/-- C9: aggregation leaves the price index unchanged: the
state-threaded aggregator, which passes the dict through every read it
performs, returns exactly the pure result together with the very dict
it was given — the index is read-only for `compute_total_sales`. -/
theorem C9_price_index_unchanged (sales : List JVal) (d : PDict) :
    compute_total_sales_st sales d = (compute_total_sales sales d, d) := by
  induction sales with
  | nil => rfl
  | cons s rest ih =>
    simp only [compute_total_sales_st, compute_total_sales, saleStepSt_eq]
    cases hs : saleStep d s with
    | none => rfl
    | some r =>
      simp only [Option.map_some']
      rw [ih]
      cases hc : compute_total_sales rest d with
      | none => rfl
      | some rr => rfl

/-- C10: aggregation is a homomorphism from transaction-list
concatenation to addition of totals: whenever both halves aggregate
normally, their concatenation aggregates to the sum of their totals
(with the concatenation of their diagnostic logs), and the empty
transaction list aggregates to 0. -/
theorem C10_concat_homomorphism (pd : PDict) (xs ys : List JVal)
    (rx ry : ℚ × List Diag)
    (hx : compute_total_sales xs pd = some rx)
    (hy : compute_total_sales ys pd = some ry) :
    compute_total_sales (xs ++ ys) pd = some (rx.1 + ry.1, rx.2 ++ ry.2) ∧
    compute_total_sales [] pd = some (0, []) :=
  ⟨compute_append pd xs ys rx ry hx hy, rfl⟩

/-- Witness for C10: the Scenario A sales list concatenated with an
empty transaction. -/
theorem C10_witness :
    compute_total_sales (exSales ++ [emptyTxn]) exPriceDict =
      some (((20 : ℚ), ([] : List Diag)).1 + ((0 : ℚ), ([] : List Diag)).1,
        ((20 : ℚ), ([] : List Diag)).2 ++ ((0 : ℚ), ([] : List Diag)).2) ∧
    compute_total_sales [] exPriceDict = some (0, []) :=
  C10_concat_homomorphism exPriceDict exSales [emptyTxn] (20, []) (0, [])
    (by
      simp [compute_total_sales, saleStep, itemsLoop, itemStep, objGet,
        exSales, exItem, toFloat, hashable, pyKey, dictLookup, keyEq,
        exPriceDict, exCatalogue, build_price_dict, buildStep, entryStep,
        dictInsert, List.find?]
      norm_num)
    (by simp [compute_total_sales, saleStep, itemsLoop, objGet, emptyTxn])
